import Mathlib

/-
Verification development for crda.c, the userspace regulatory database
loader.  The definitions below are a shallow embedding of the C source:
byte buffers become `List Nat` (one entry per byte), C `int` arithmetic
becomes `Int` with the usual-arithmetic-conversion points made explicit
(`u32OfInt`, `u64OfInt`, `i32OfNat`), and reads of the mapped file are
`Except`-valued so that a read outside the buffer is a distinguished
`Fail.oob` outcome (in C such a read is undefined behavior).  Process
termination via exit() is the distinguished `Fail.exitProc` outcome,
while error returns from main are `Fail.err` with a tag naming the
diagnostic site.
-/

namespace Crda

/-- Wrap of an Int to an unsigned 32-bit value, as done by the C usual
arithmetic conversions when an int operand meets an unsigned int. -/
def u32OfInt (z : Int) : Nat := (z % 4294967296).toNat

/-- Wrap of an Int to an unsigned 64-bit value, as done when an int
operand meets a size_t on an LP64 platform. -/
def u64OfInt (z : Int) : Nat := (z % 18446744073709551616).toNat

/-- Conversion of a Nat to a signed 32-bit int with wrap, as done when an
unsigned or wider value is stored into a C int. -/
def i32OfNat (n : Nat) : Int :=
  if n % 4294967296 < 2147483648 then ((n % 4294967296 : Nat) : Int)
  else ((n % 4294967296 : Nat) : Int) - 4294967296

/-- Error tags for the diagnostic sites of main in crda.c: lines 218
(invalid COUNTRY), 253 (magic), 259 (version), 269 (signature length),
303 and 358 (signature wrong), 378 (no country match). -/
inductive Err where
  | invalidInput | badMagic | badVersion | invalidSignatureLength
  | signatureInvalid | countryNotFound
deriving DecidableEq

/-- Failure channel of the loader.  `err` is an error return from main
tagged with the diagnostic site, `exitProc` is a direct process
termination by exit() (crda.c lines 139 and 108), and `oob` marks a read
outside the mapped buffer, which in C is undefined behavior. -/
inductive Fail where
  | err (e : Err) : Fail
  | exitProc (code : Int) : Fail
  | oob : Fail
deriving DecidableEq

/-- Attribute tree node for the outbound netlink message: nla_put_string,
NLA_PUT_U32 and nla_nest_start / nla_nest_end in crda.c. -/
inductive Attr where
  | str (typ : Nat) (val : List Nat) : Attr
  | u32 (typ : Nat) (val : Nat) : Attr
  | nest (typ : Nat) (children : List Attr) : Attr

/-- Overall outcome of one invocation of the loader. -/
inductive Outcome where
  | fail (f : Fail) : Outcome
  | ok (msg : List Attr) : Outcome

/-- Attribute type constants from the external header linux/nl80211.h. -/
def NL80211_ATTR_REG_ALPHA2 : Nat := 33

/-- Attribute type constant from the external header linux/nl80211.h. -/
def NL80211_ATTR_REG_RULES : Nat := 34

/-- Attribute type constant from the external header linux/nl80211.h. -/
def NL80211_ATTR_REG_RULE_FLAGS : Nat := 1

/-- Attribute type constant from the external header linux/nl80211.h. -/
def NL80211_ATTR_FREQ_RANGE_START : Nat := 2

/-- Attribute type constant from the external header linux/nl80211.h. -/
def NL80211_ATTR_FREQ_RANGE_END : Nat := 3

/-- Attribute type constant from the external header linux/nl80211.h. -/
def NL80211_ATTR_FREQ_RANGE_MAX_BW : Nat := 4

/-- Attribute type constant from the external header linux/nl80211.h. -/
def NL80211_ATTR_POWER_RULE_MAX_ANT_GAIN : Nat := 5

/-- Attribute type constant from the external header linux/nl80211.h. -/
def NL80211_ATTR_POWER_RULE_MAX_EIRP : Nat := 6

/-- Modelled from the spec: regdb.h is not under src/, so the magic
constant of the database header comes from the spec (section 8, the RGDB
style marker). -/
def REGDB_MAGIC : Nat := 0x52474442

/-- Modelled from the spec: regdb.h is not under src/, so the expected
format version comes from the spec (section 8). -/
def REGDB_VERSION : Nat := 19

/-- Reading of `n` raw bytes at offset `off` of the mapped buffer.  A
read that would run past the end of the mapping is undefined behavior in
C and is modelled as the distinguished `Fail.oob`. -/
def getBytes (db : List Nat) (off n : Nat) : Except Fail (List Nat) :=
  if off + n ≤ db.length then Except.ok ((db.drop off).take n)
  else Except.error Fail.oob

/-- Big-endian decoding of a byte list, the ntohl conversion applied by
crda.c to every 32-bit field read from the file. -/
def be32 (bs : List Nat) : Nat := bs.foldl (fun a b => a * 256 + b) 0

/-- Reading of one network-byte-order 32-bit field at offset `off`,
returning its host-order value: a load of a `__be32` struct member
followed by ntohl. -/
def readU32 (db : List Nat) (off : Nat) : Except Fail Nat := do
  let bs ← getBytes db off 4
  pure (be32 bs)

/-- Embedding of get_file_ptr, crda.c lines 133 to 143.  `dblen` and
`structlen` are C ints, `p` is the ntohl-converted unsigned offset.  The
C comparison `p > dblen - structlen` subtracts in int and then converts
the difference to unsigned int for the comparison against the u32 `p`,
hence the `u32OfInt` wrap.  Failure calls exit(3). -/
def get_file_ptr (dblen structlen : Int) (p : Nat) : Except Fail Nat :=
  if u32OfInt (dblen - structlen) < p then Except.error (Fail.exitProc 3)
  else Except.ok p

/-- Embedding of error_handler, crda.c lines 105 to 109: the netlink
error callback prints the error and calls exit(err->error) directly. -/
def error_handler (code : Int) : Fail := Fail.exitProc code

/-- Embedding of isalpha_upper, crda.c lines 111 to 116. -/
def isalpha_upper (letter : Nat) : Bool := decide (65 ≤ letter ∧ letter ≤ 90)

/-- Embedding of is_alpha2, crda.c lines 118 to 123.  The C string is a
byte list; index beyond the end reads the NUL terminator, value 0. -/
def is_alpha2 (alpha2 : List Nat) : Bool :=
  isalpha_upper (alpha2.getD 0 0) && isalpha_upper (alpha2.getD 1 0)

/-- Embedding of is_world_regdom, crda.c lines 125 to 131: both of the
first two characters equal ASCII 48, the digit zero. -/
def is_world_regdom (alpha2 : List Nat) : Bool :=
  (alpha2.getD 0 0 == 48) && (alpha2.getD 1 0 == 48)

/-- First two bytes of the COUNTRY string, the memcpy at crda.c line 222. -/
def alpha2_of (s : List Nat) : List Nat := [s.getD 0 0, s.getD 1 0]

/-- Embedding of the country-table scan, crda.c lines 369 to 375: from
record index `i` with `fuel` records left, compare the two code bytes of
each fixed-size 8-byte country record against the requested code and
stop at the first match.  Modelled from the spec for the record layout:
regdb.h is not under src/; the spec (section 6) gives country records as
alpha2 bytes, padding, and a 32-bit collection pointer, 8 bytes total
with the code at offset 0. -/
def country_scan (db : List Nat) (p : Nat) (a2 : List Nat) :
    Nat → Nat → Except Fail (Option Nat)
  | _, 0 => Except.ok none
  | i, Nat.succ fuel =>
    match getBytes db (p + 8 * i) 2 with
    | Except.error e => Except.error e
    | Except.ok code =>
      if code = a2 then Except.ok (some i)
      else country_scan db p a2 (i + 1) fuel

/-- Country lookup: the scan of crda.c lines 369 to 375 followed by the
found_country check of lines 377 to 380, which returns -1 from main when
no record matched.  `num` is the C int loop bound, so a negative count
runs zero iterations (Int.toNat is 0 on negatives). -/
def find_country (db : List Nat) (p : Nat) (a2 : List Nat) (num : Int) :
    Except Fail Nat :=
  match country_scan db p a2 0 num.toNat with
  | Except.error e => Except.error e
  | Except.ok (some i) => Except.ok i
  | Except.ok none => Except.error (Fail.err Err.countryNotFound)

/-- Embedding of put_reg_rule, crda.c lines 145 to 166, for one rule
pointer: resolve the 12-byte rule record, its 12-byte frequency range
and its 8-byte power rule through get_file_ptr, then emit the six
NLA_PUT_U32 attributes with the ntohl-converted field values.  Modelled
from the spec for the record layout: regdb.h is not under src/; the spec
(section 6) gives rule records as flags, freq_range_ptr, power_rule_ptr,
frequency records as start, end, max_bw, and power records as
max_antenna_gain, max_eirp, all 32-bit fields. -/
def put_reg_rule (db : List Nat) (dblen : Int) (rp : Nat) :
    Except Fail (List Attr) := do
  let r ← get_file_ptr dblen 12 rp
  let frp ← readU32 db (r + 4)
  let fo ← get_file_ptr dblen 12 frp
  let prp ← readU32 db (r + 8)
  let po ← get_file_ptr dblen 8 prp
  let flags ← readU32 db r
  let sf ← readU32 db fo
  let ef ← readU32 db (fo + 4)
  let bw ← readU32 db (fo + 8)
  let g ← readU32 db po
  let ei ← readU32 db (po + 4)
  pure [Attr.u32 NL80211_ATTR_REG_RULE_FLAGS flags,
        Attr.u32 NL80211_ATTR_FREQ_RANGE_START sf,
        Attr.u32 NL80211_ATTR_FREQ_RANGE_END ef,
        Attr.u32 NL80211_ATTR_FREQ_RANGE_MAX_BW bw,
        Attr.u32 NL80211_ATTR_POWER_RULE_MAX_ANT_GAIN g,
        Attr.u32 NL80211_ATTR_POWER_RULE_MAX_EIRP ei]

/-- Embedding of the rules loop, crda.c lines 407 to 418: for each rule
index `j`, read the j-th entry of reg_rule_ptrs (offset 4 + 4j inside
the collection, after the 32-bit rule count), encode the rule with
put_reg_rule, and wrap it in a nested container whose attribute type is
`ctry_idx`, the value the C variable i holds after the country loop. -/
def reg_rules_loop (db : List Nat) (dblen : Int) (rcoll ctry_idx : Nat) :
    Nat → Nat → Except Fail (List Attr)
  | _, 0 => Except.ok []
  | j, Nat.succ fuel => do
    let rp ← readU32 db (rcoll + 4 + 4 * j)
    let attrs ← put_reg_rule db dblen rp
    let rest ← reg_rules_loop db dblen rcoll ctry_idx (j + 1) fuel
    pure (Attr.nest ctry_idx attrs :: rest)

/-- Embedding of the body of main after COUNTRY validation, crda.c lines
250 to 420, for a buffer `db` of `db.length` bytes (st_size) and the
abstract verdict `sigOK` of the compiled-in signature backend.  The
header layout is modelled from the spec: regdb.h is not under src/; the
spec (section 6) gives the header as magic, version, signature_length,
country table pointer, country count, five 32-bit fields, 20 bytes.  The
digest step reads (size_t)dblen bytes starting at db, so a wrapped
negative dblen is an out-of-bounds read, modelled as Fail.oob. -/
def crda_body (a2 db : List Nat) (sigOK : Bool) : Except Fail (List Attr) := do
  let hp ← get_file_ptr (db.length : Int) 20 0
  let magic ← readU32 db hp
  if magic ≠ REGDB_MAGIC then Except.error (Fail.err Err.badMagic) else do
  let ver ← readU32 db (hp + 4)
  if ver ≠ REGDB_VERSION then Except.error (Fail.err Err.badVersion) else do
  let siglen ← readU32 db (hp + 8)
  if u64OfInt ((db.length : Int) - (siglen : Int)) ≤ 20 then
    Except.error (Fail.err Err.invalidSignatureLength) else do
  if db.length < u64OfInt ((db.length : Int) - (siglen : Int)) then
    Except.error Fail.oob else do
  if sigOK = false then Except.error (Fail.err Err.signatureInvalid) else do
  let ncu ← readU32 db (hp + 16)
  let ctp ← readU32 db (hp + 12)
  let cp ← get_file_ptr ((db.length : Int) - (siglen : Int))
    (i32OfNat ((8 * u64OfInt (i32OfNat ncu)) % 18446744073709551616)) ctp
  let ci ← find_country db cp a2 (i32OfNat ncu)
  let colp ← readU32 db (cp + 8 * ci + 4)
  let rc1 ← get_file_ptr ((db.length : Int) - (siglen : Int)) 4 colp
  let nru ← readU32 db rc1
  let rc2 ← get_file_ptr ((db.length : Int) - (siglen : Int))
    (i32OfNat ((4 + u64OfInt (i32OfNat nru) * 4) % 18446744073709551616)) colp
  let code ← getBytes db (cp + 8 * ci) 2
  let rules ← reg_rules_loop db ((db.length : Int) - (siglen : Int))
    rc2 ci 0 (i32OfNat nru).toNat
  pure [Attr.str NL80211_ATTR_REG_ALPHA2 code,
        Attr.nest NL80211_ATTR_REG_RULES rules]

/-- Embedding of main from COUNTRY validation onward, crda.c lines 217
to 420: reject a COUNTRY value that is neither an uppercase letter pair
nor the world sentinel before the database is touched, then run the
loader body on the first two bytes of the string. -/
def crda_load (cc db : List Nat) (sigOK : Bool) : Except Fail (List Attr) :=
  if (is_alpha2 cc || is_world_regdom cc) = false then
    Except.error (Fail.err Err.invalidInput)
  else crda_body (alpha2_of cc) db sigOK

/-- Overall outcome of one loader invocation. -/
def crda_main (cc db : List Nat) (sigOK : Bool) : Outcome :=
  match crda_load cc db sigOK with
  | Except.ok msg => Outcome.ok msg
  | Except.error f => Outcome.fail f

/-- Embedding of the OpenSSL key loop, crda.c lines 289 to 300: keys are
tried in table order, a key whose RSA_size differs from the declared
signature length is skipped, and the loop stops at the first key under
which RSA_verify succeeds.  Keys are opaque handles; `rsaSize` and
`rsaVerify` abstract the OpenSSL primitives for the fixed digest and
signature of this invocation. -/
def openssl_key_loop (rsaSize : Nat → Nat) (rsaVerify : Nat → Bool)
    (siglen : Nat) : List Nat → Bool
  | [] => false
  | k :: ks =>
    if rsaSize k ≠ siglen then openssl_key_loop rsaSize rsaVerify siglen ks
    else if rsaVerify k then true
    else openssl_key_loop rsaSize rsaVerify siglen ks

/-- Embedding of the gcrypt key loop body, crda.c lines 335 to 355: the
loop counts i from 0 to the key count, but every iteration converts
keys[0].e and keys[0].n (lines 337 and 339) and verifies against that
key, so the tested key never depends on i. -/
def gcrypt_key_loop (pkVerify : Nat → Bool) (keys : List Nat) :
    Nat → Bool
  | 0 => false
  | Nat.succ fuel =>
    if pkVerify (keys.getD 0 0) then true
    else gcrypt_key_loop pkVerify keys fuel

/-- Embedding of the gcrypt verification, crda.c lines 335 to 360: run
the key loop for as many iterations as there are compiled-in keys. -/
def gcrypt_verify (pkVerify : Nat → Bool) (keys : List Nat) : Bool :=
  gcrypt_key_loop pkVerify keys keys.length

/-- Well-formed 72-byte database: valid magic and version, declared
signature length 4, one country US at table offset 20 whose collection
at offset 28 holds one rule at offset 36 with flags 7, frequency range
2400 to 2483 with max bandwidth 40 at offset 48, and power rule with
gain 0 and eirp 2000 at offset 60; 4 trailing signature bytes. -/
def goodDb : List Nat :=
  [0x52, 0x47, 0x44, 0x42,  0, 0, 0, 19,  0, 0, 0, 4,
   0, 0, 0, 20,  0, 0, 0, 1,
   85, 83, 0, 0,  0, 0, 0, 28,
   0, 0, 0, 1,  0, 0, 0, 36,
   0, 0, 0, 7,  0, 0, 0, 48,  0, 0, 0, 60,
   0, 0, 9, 96,  0, 0, 9, 179,  0, 0, 0, 40,
   0, 0, 0, 0,  0, 0, 7, 208,
   9, 9, 9, 9]

/-- Rules container the loader produces for goodDb and COUNTRY US. -/
def goodRules : List Attr :=
  [Attr.nest 0
    [Attr.u32 NL80211_ATTR_REG_RULE_FLAGS 7,
     Attr.u32 NL80211_ATTR_FREQ_RANGE_START 2400,
     Attr.u32 NL80211_ATTR_FREQ_RANGE_END 2483,
     Attr.u32 NL80211_ATTR_FREQ_RANGE_MAX_BW 40,
     Attr.u32 NL80211_ATTR_POWER_RULE_MAX_ANT_GAIN 0,
     Attr.u32 NL80211_ATTR_POWER_RULE_MAX_EIRP 2000]]

/-- Message the loader produces for goodDb and COUNTRY US. -/
def goodMsg : List Attr :=
  [Attr.str NL80211_ATTR_REG_ALPHA2 [85, 83],
   Attr.nest NL80211_ATTR_REG_RULES goodRules]

/-- A 24-byte file with valid magic and version whose header declares a
signature length of 1000, far larger than the file itself. -/
def dbShort : List Nat :=
  [0x52, 0x47, 0x44, 0x42,  0, 0, 0, 19,  0, 0, 3, 232,
   0, 0, 0, 20,  0, 0, 0, 1,  0, 0, 0, 0]

/-- A 32-byte file (28 usable bytes after the 4 declared signature
bytes) whose header claims 4 country records at table offset 20, that
is 32 bytes of table where only 8 fit. -/
def dbManyCountries : List Nat :=
  [0x52, 0x47, 0x44, 0x42,  0, 0, 0, 19,  0, 0, 0, 4,
   0, 0, 0, 20,  0, 0, 0, 4,
   65, 65, 0, 0,  0, 0, 0, 0,
   66, 66, 0, 0]

/-- A 24-byte file with valid header whose country table pointer is the
wild offset 16777215, so pointer resolution fails. -/
def dbBadPtr : List Nat :=
  [0x52, 0x47, 0x44, 0x42,  0, 0, 0, 19,  0, 0, 0, 2,
   0, 255, 255, 255,  0, 0, 0, 1,  0, 0, 0, 0]

/-- A bare two-record country table holding the same code US twice, for
exercising first-match semantics of the scan. -/
def dbDupTable : List Nat :=
  [85, 83, 0, 0, 0, 0, 0, 0,  85, 83, 0, 0, 0, 0, 0, 0]

/-- Inversion of a successful Except bind. -/
theorem except_bind_ok {ε α β : Type} {x : Except ε α} {f : α → Except ε β}
    {b : β} : x >>= f = Except.ok b ↔ ∃ a, x = Except.ok a ∧ f a = Except.ok b := by
  cases x <;> simp [Bind.bind, Except.bind]

/-- Inversion of a failing Except bind. -/
theorem except_bind_err {ε α β : Type} {x : Except ε α} {f : α → Except ε β}
    {e : ε} : x >>= f = Except.error e ↔
      x = Except.error e ∨ ∃ a, x = Except.ok a ∧ f a = Except.error e := by
  cases x <;> simp [Bind.bind, Except.bind]

/-- Failures of getBytes are exactly the out-of-bounds marker. -/
theorem getBytes_error {db : List Nat} {off n : Nat} {e : Fail}
    (h : getBytes db off n = Except.error e) : e = Fail.oob := by
  unfold getBytes at h
  split at h
  · exact absurd h (by simp)
  · exact (Except.error.injEq _ _ ▸ h).symm ▸ rfl

/-- Failures of readU32 are exactly the out-of-bounds marker. -/
theorem readU32_error {db : List Nat} {off : Nat} {e : Fail}
    (h : readU32 db off = Except.error e) : e = Fail.oob := by
  unfold readU32 at h
  rw [except_bind_err] at h
  rcases h with h | ⟨a, _, h⟩
  · exact getBytes_error h
  · exact absurd h (by simp [pure, Except.pure])

/-- Failures of get_file_ptr are exactly exit(3). -/
theorem get_file_ptr_error {dblen structlen : Int} {p : Nat} {e : Fail}
    (h : get_file_ptr dblen structlen p = Except.error e) :
    e = Fail.exitProc 3 := by
  unfold get_file_ptr at h
  split at h
  · cases h; rfl
  · exact absurd h (by simp)

/-- On success get_file_ptr returns the offset it was given. -/
theorem get_file_ptr_ok {dblen structlen : Int} {p q : Nat}
    (h : get_file_ptr dblen structlen p = Except.ok q) : q = p := by
  unfold get_file_ptr at h
  split at h
  · exact absurd h (by simp)
  · cases h; rfl

/-- With a match at relative index k and mismatching readable records
before it, the scan stops exactly at the match. -/
theorem country_scan_finds (db : List Nat) (p : Nat) (a2 : List Nat) :
    ∀ (fuel i k : Nat), k < fuel →
    getBytes db (p + 8 * (i + k)) 2 = Except.ok a2 →
    (∀ j, j < k → ∃ b, getBytes db (p + 8 * (i + j)) 2 = Except.ok b ∧ b ≠ a2) →
    country_scan db p a2 i fuel = Except.ok (some (i + k)) := by
  intro fuel
  induction fuel with
  | zero => intro i k hk; omega
  | succ f ih =>
    intro i k hk hmatch hprev
    unfold country_scan
    cases k with
    | zero =>
      simp only [Nat.add_zero] at hmatch ⊢
      rw [hmatch]
      simp
    | succ k =>
      obtain ⟨b, hb, hne⟩ := hprev 0 (Nat.succ_pos k)
      rw [Nat.add_zero] at hb
      rw [hb]
      simp only [hne, if_neg, ite_false]
      have hmatch2 : getBytes db (p + 8 * (i + 1 + k)) 2 = Except.ok a2 := by
        have : i + 1 + k = i + (k + 1) := by omega
        rw [this]; exact hmatch
      have hprev2 : ∀ j, j < k →
          ∃ b, getBytes db (p + 8 * (i + 1 + j)) 2 = Except.ok b ∧ b ≠ a2 := by
        intro j hj
        have : i + 1 + j = i + (j + 1) := by omega
        rw [this]
        exact hprev (j + 1) (by omega)
      rw [show i + (k + 1) = i + 1 + k by omega]
      exact ih (i + 1) k (by omega) hmatch2 hprev2

/-- With mismatching readable records everywhere, the scan completes
without a match. -/
theorem country_scan_misses (db : List Nat) (p : Nat) (a2 : List Nat) :
    ∀ (fuel i : Nat),
    (∀ j, j < fuel → ∃ b, getBytes db (p + 8 * (i + j)) 2 = Except.ok b ∧ b ≠ a2) →
    country_scan db p a2 i fuel = Except.ok none := by
  intro fuel
  induction fuel with
  | zero => intro i _; rfl
  | succ f ih =>
    intro i hprev
    unfold country_scan
    obtain ⟨b, hb, hne⟩ := hprev 0 (Nat.succ_pos f)
    rw [Nat.add_zero] at hb
    rw [hb]
    simp only [hne, if_neg]
    apply ih
    intro j hj
    have : i + 1 + j = i + (j + 1) := by omega
    rw [this]
    exact hprev (j + 1) (by omega)

/-- Failures of the country scan are exactly out-of-bounds reads. -/
theorem country_scan_error (db : List Nat) (p : Nat) (a2 : List Nat) :
    ∀ (fuel i : Nat) (e : Fail),
    country_scan db p a2 i fuel = Except.error e → e = Fail.oob := by
  intro fuel
  induction fuel with
  | zero => intro i e h; exact absurd h (by simp [country_scan])
  | succ f ih =>
    intro i e h
    unfold country_scan at h
    split at h
    · rename_i e2 heq
      cases h
      exact getBytes_error heq
    · rename_i code heq
      split at h
      · exact absurd h (by simp)
      · exact ih (i + 1) e h

/-- Inversion of a successful Except pure. -/
theorem except_pure_ok {ε α : Type} {a b : α} :
    (pure a : Except ε α) = Except.ok b ↔ a = b := by
  simp [pure, Except.pure]

/-- Whenever put_reg_rule succeeds, every resolution passed the bounds
check at the offset read from the file, and the six attributes are
exactly the ntohl-converted source fields, in the NLA_PUT_U32 order of
crda.c lines 155 to 160. -/
theorem put_reg_rule_ok {db : List Nat} {dblen : Int} {rp : Nat}
    {attrs : List Attr} (h : put_reg_rule db dblen rp = Except.ok attrs) :
    ∃ frp prp flags sf ef bw g ei,
      get_file_ptr dblen 12 rp = Except.ok rp ∧
      readU32 db (rp + 4) = Except.ok frp ∧
      get_file_ptr dblen 12 frp = Except.ok frp ∧
      readU32 db (rp + 8) = Except.ok prp ∧
      get_file_ptr dblen 8 prp = Except.ok prp ∧
      readU32 db rp = Except.ok flags ∧
      readU32 db frp = Except.ok sf ∧
      readU32 db (frp + 4) = Except.ok ef ∧
      readU32 db (frp + 8) = Except.ok bw ∧
      readU32 db prp = Except.ok g ∧
      readU32 db (prp + 4) = Except.ok ei ∧
      attrs = [Attr.u32 NL80211_ATTR_REG_RULE_FLAGS flags,
               Attr.u32 NL80211_ATTR_FREQ_RANGE_START sf,
               Attr.u32 NL80211_ATTR_FREQ_RANGE_END ef,
               Attr.u32 NL80211_ATTR_FREQ_RANGE_MAX_BW bw,
               Attr.u32 NL80211_ATTR_POWER_RULE_MAX_ANT_GAIN g,
               Attr.u32 NL80211_ATTR_POWER_RULE_MAX_EIRP ei] := by
  unfold put_reg_rule at h
  simp only [except_bind_ok, except_pure_ok] at h
  obtain ⟨r, hr, frp, hfrp, fo, hfo, prp, hprp, po, hpo,
          flags, hflags, sf, hsf, ef, hef, bw, hbw, g, hg, ei, hei, hattrs⟩ := h
  have er : r = rp := get_file_ptr_ok hr
  have ef2 : fo = frp := get_file_ptr_ok hfo
  have ep : po = prp := get_file_ptr_ok hpo
  rw [er] at hr hfrp hprp hflags
  rw [ef2] at hfo hsf hef hbw
  rw [ep] at hpo hg hei
  exact ⟨frp, prp, flags, sf, ef, bw, g, ei, hr, hfrp, hfo, hprp, hpo,
         hflags, hsf, hef, hbw, hg, hei, hattrs.symm⟩

/-- Whenever the rules loop succeeds it emits one nested container per
rule index, in index order, each built by put_reg_rule from the pointer
stored at that index of the collection. -/
theorem reg_rules_loop_ok (db : List Nat) (dblen : Int) (rcoll ci : Nat) :
    ∀ (fuel j : Nat) (out : List Attr),
    reg_rules_loop db dblen rcoll ci j fuel = Except.ok out →
    out.length = fuel ∧ ∀ k, k < fuel →
      ∃ rp attrs, readU32 db (rcoll + 4 + 4 * (j + k)) = Except.ok rp ∧
        put_reg_rule db dblen rp = Except.ok attrs ∧
        out.get? k = some (Attr.nest ci attrs) := by
  intro fuel
  induction fuel with
  | zero =>
    intro j out h
    injection h with h
    subst h
    exact ⟨rfl, fun k hk => absurd hk (by omega)⟩
  | succ f ih =>
    intro j out h
    unfold reg_rules_loop at h
    simp only [except_bind_ok, except_pure_ok] at h
    obtain ⟨rp, hrp, attrs, hattrs, rest, hrest, hout⟩ := h
    obtain ⟨hlen, hidx⟩ := ih (j + 1) rest hrest
    subst hout
    refine ⟨by simp [hlen], ?_⟩
    intro k hk
    cases k with
    | zero =>
      refine ⟨rp, attrs, ?_, hattrs, rfl⟩
      rw [Nat.add_zero]
      exact hrp
    | succ k =>
      obtain ⟨rp2, attrs2, hrp2, hattrs2, hget⟩ := hidx k (by omega)
      refine ⟨rp2, attrs2, ?_, hattrs2, hget⟩
      rw [show j + (k + 1) = j + 1 + k by omega]
      exact hrp2

/-- Every element a successful rules loop emits is a nested container
whose attribute type is the country index argument. -/
theorem reg_rules_loop_mem (db : List Nat) (dblen : Int) (rcoll ci : Nat) :
    ∀ (fuel j : Nat) (out : List Attr),
    reg_rules_loop db dblen rcoll ci j fuel = Except.ok out →
    ∀ a, a ∈ out → ∃ attrs, a = Attr.nest ci attrs := by
  intro fuel
  induction fuel with
  | zero =>
    intro j out h
    injection h with h
    subst h
    intro a ha
    exact absurd ha (by simp)
  | succ f ih =>
    intro j out h
    unfold reg_rules_loop at h
    simp only [except_bind_ok, except_pure_ok] at h
    obtain ⟨rp, _, attrs, _, rest, hrest, hout⟩ := h
    subst hout
    intro a ha
    rcases List.mem_cons.mp ha with ha | ha
    · exact ⟨attrs, ha⟩
    · exact ih (j + 1) rest hrest a ha

/-- Predicate stating that a step can only terminate the process with
exit code 3, the single exit call reachable from the loader core. -/
def OnlyExit3 {α : Type} (x : Except Fail α) : Prop :=
  ∀ n, x = Except.error (Fail.exitProc n) → n = 3

/-- OnlyExit3 is preserved by sequencing. -/
theorem onlyExit3_bind {α β : Type} {x : Except Fail α}
    {f : α → Except Fail β} (hx : OnlyExit3 x)
    (hf : ∀ a, OnlyExit3 (f a)) : OnlyExit3 (x >>= f) := by
  intro n h
  rw [except_bind_err] at h
  rcases h with h | ⟨a, _, h⟩
  · exact hx n h
  · exact hf a n h

/-- A success satisfies OnlyExit3. -/
theorem onlyExit3_ok {α : Type} (a : α) : OnlyExit3 (Except.ok a) :=
  fun n h => absurd h (by simp)

/-- A pure value satisfies OnlyExit3. -/
theorem onlyExit3_pure {α : Type} (a : α) :
    OnlyExit3 (pure a : Except Fail α) :=
  fun n h => absurd h (by simp [pure, Except.pure])

/-- A tagged error return satisfies OnlyExit3. -/
theorem onlyExit3_err {α : Type} (e : Err) :
    OnlyExit3 (Except.error (Fail.err e) : Except Fail α) :=
  fun n h => absurd (Except.error.inj h) (by simp)

/-- An out-of-bounds outcome satisfies OnlyExit3. -/
theorem onlyExit3_oob {α : Type} :
    OnlyExit3 (Except.error Fail.oob : Except Fail α) :=
  fun n h => absurd (Except.error.inj h) (by simp)

/-- Reads satisfy OnlyExit3. -/
theorem onlyExit3_getBytes (db : List Nat) (off n : Nat) :
    OnlyExit3 (getBytes db off n) := by
  intro m h
  have := getBytes_error h
  simp at this

/-- Field reads satisfy OnlyExit3. -/
theorem onlyExit3_readU32 (db : List Nat) (off : Nat) :
    OnlyExit3 (readU32 db off) := by
  intro m h
  have := readU32_error h
  simp at this

/-- Pointer resolution satisfies OnlyExit3: its only exit code is 3. -/
theorem onlyExit3_get_file_ptr (dblen structlen : Int) (p : Nat) :
    OnlyExit3 (get_file_ptr dblen structlen p) := by
  intro m h
  unfold get_file_ptr at h
  split at h
  · exact (Fail.exitProc.inj (Except.error.inj h)).symm
  · exact absurd h (by simp)

/-- Country lookup satisfies OnlyExit3. -/
theorem onlyExit3_find_country (db : List Nat) (p : Nat) (a2 : List Nat)
    (num : Int) : OnlyExit3 (find_country db p a2 num) := by
  intro m h
  unfold find_country at h
  split at h
  · rename_i e heq
    cases h
    have := country_scan_error db p a2 num.toNat 0 _ heq
    simp at this
  · exact absurd h (by simp)
  · exact absurd (Except.error.inj h) (by simp)

/-- Rule encoding satisfies OnlyExit3. -/
theorem onlyExit3_put_reg_rule (db : List Nat) (dblen : Int) (rp : Nat) :
    OnlyExit3 (put_reg_rule db dblen rp) := by
  unfold put_reg_rule
  apply onlyExit3_bind (onlyExit3_get_file_ptr _ _ _); intro r
  apply onlyExit3_bind (onlyExit3_readU32 _ _); intro frp
  apply onlyExit3_bind (onlyExit3_get_file_ptr _ _ _); intro fo
  apply onlyExit3_bind (onlyExit3_readU32 _ _); intro prp
  apply onlyExit3_bind (onlyExit3_get_file_ptr _ _ _); intro po
  apply onlyExit3_bind (onlyExit3_readU32 _ _); intro flags
  apply onlyExit3_bind (onlyExit3_readU32 _ _); intro sf
  apply onlyExit3_bind (onlyExit3_readU32 _ _); intro ef
  apply onlyExit3_bind (onlyExit3_readU32 _ _); intro bw
  apply onlyExit3_bind (onlyExit3_readU32 _ _); intro g
  apply onlyExit3_bind (onlyExit3_readU32 _ _); intro ei
  exact onlyExit3_pure _

/-- The rules loop satisfies OnlyExit3. -/
theorem onlyExit3_reg_rules_loop (db : List Nat) (dblen : Int)
    (rcoll ci : Nat) : ∀ (fuel j : Nat),
    OnlyExit3 (reg_rules_loop db dblen rcoll ci j fuel) := by
  intro fuel
  induction fuel with
  | zero => intro j; exact onlyExit3_ok _
  | succ f ih =>
    intro j
    unfold reg_rules_loop
    apply onlyExit3_bind (onlyExit3_readU32 _ _); intro rp
    apply onlyExit3_bind (onlyExit3_put_reg_rule _ _ _); intro attrs
    apply onlyExit3_bind (ih (j + 1)); intro rest
    exact onlyExit3_pure _

/-- The loader body satisfies OnlyExit3: every direct process
termination it can perform carries exit code 3. -/
theorem onlyExit3_crda_body (a2 db : List Nat) (g : Bool) :
    OnlyExit3 (crda_body a2 db g) := by
  unfold crda_body
  apply onlyExit3_bind (onlyExit3_get_file_ptr _ _ _); intro hp
  apply onlyExit3_bind (onlyExit3_readU32 _ _); intro magic
  split
  · exact onlyExit3_err _
  apply onlyExit3_bind (onlyExit3_readU32 _ _); intro ver
  split
  · exact onlyExit3_err _
  apply onlyExit3_bind (onlyExit3_readU32 _ _); intro siglen
  split
  · exact onlyExit3_err _
  split
  · exact onlyExit3_oob
  split
  · exact onlyExit3_err _
  apply onlyExit3_bind (onlyExit3_readU32 _ _); intro ncu
  apply onlyExit3_bind (onlyExit3_readU32 _ _); intro ctp
  apply onlyExit3_bind (onlyExit3_get_file_ptr _ _ _); intro cp
  apply onlyExit3_bind (onlyExit3_find_country _ _ _ _); intro ci
  apply onlyExit3_bind (onlyExit3_readU32 _ _); intro colp
  apply onlyExit3_bind (onlyExit3_get_file_ptr _ _ _); intro rc1
  apply onlyExit3_bind (onlyExit3_readU32 _ _); intro nru
  apply onlyExit3_bind (onlyExit3_get_file_ptr _ _ _); intro rc2
  apply onlyExit3_bind (onlyExit3_getBytes _ _ _); intro code
  apply onlyExit3_bind (onlyExit3_reg_rules_loop _ _ _ _ _ _); intro rules
  exact onlyExit3_pure _

/-- The whole loader satisfies OnlyExit3. -/
theorem onlyExit3_crda_load (cc db : List Nat) (g : Bool) :
    OnlyExit3 (crda_load cc db g) := by
  unfold crda_load
  split
  · exact onlyExit3_err _
  · exact onlyExit3_crda_body _ _ _

/-- Whenever the loader body succeeds, the whole decode chain is pinned
to the header fields of the buffer: the signature length comes from
offset 8, the country count from offset 16 and the country table
pointer from offset 12 (the header resolves to offset 0), the table
block at that pointer passes the bounds check, the scan over that table
yields the country index, the collection pointer is read from the
matched record and re-resolved, the rules come from the loop over that
collection, and the message is the code string followed by one rules
container in which every per-rule container carries the scan index as
its attribute type. -/
theorem crda_body_ok {a2 db : List Nat} {g : Bool} {msg : List Attr}
    (h : crda_body a2 db g = Except.ok msg) :
    ∃ siglen ncu ctp ci colp nru code rules,
      readU32 db 8 = Except.ok siglen ∧
      readU32 db 16 = Except.ok ncu ∧
      readU32 db 12 = Except.ok ctp ∧
      get_file_ptr ((db.length : Int) - (siglen : Int))
        (i32OfNat ((8 * u64OfInt (i32OfNat ncu)) % 18446744073709551616)) ctp
        = Except.ok ctp ∧
      find_country db ctp a2 (i32OfNat ncu) = Except.ok ci ∧
      readU32 db (ctp + 8 * ci + 4) = Except.ok colp ∧
      get_file_ptr ((db.length : Int) - (siglen : Int)) 4 colp = Except.ok colp ∧
      readU32 db colp = Except.ok nru ∧
      get_file_ptr ((db.length : Int) - (siglen : Int))
        (i32OfNat ((4 + u64OfInt (i32OfNat nru) * 4) % 18446744073709551616)) colp
        = Except.ok colp ∧
      getBytes db (ctp + 8 * ci) 2 = Except.ok code ∧
      reg_rules_loop db ((db.length : Int) - (siglen : Int)) colp ci 0
        (i32OfNat nru).toNat = Except.ok rules ∧
      msg = [Attr.str NL80211_ATTR_REG_ALPHA2 code,
             Attr.nest NL80211_ATTR_REG_RULES rules] ∧
      ∀ a, a ∈ rules → ∃ attrs, a = Attr.nest ci attrs := by
  unfold crda_body at h
  simp only [except_bind_ok, except_pure_ok] at h
  obtain ⟨hp, hhp, magic, _, h⟩ := h
  split at h
  · exact absurd h (by simp)
  simp only [except_bind_ok, except_pure_ok] at h
  obtain ⟨ver, _, h⟩ := h
  split at h
  · exact absurd h (by simp)
  simp only [except_bind_ok, except_pure_ok] at h
  obtain ⟨siglen, hsig, h⟩ := h
  split at h
  · exact absurd h (by simp)
  split at h
  · exact absurd h (by simp)
  split at h
  · exact absurd h (by simp)
  simp only [except_bind_ok, except_pure_ok] at h
  obtain ⟨ncu, hncu, ctp, hctp, cp, hcp, ci, hci, colp, hcolp, rc1, hrc1,
          nru, hnru, rc2, hrc2, code, hcode, rules, hrules, hmsg⟩ := h
  have e0 : hp = 0 := get_file_ptr_ok hhp
  rw [e0, Nat.zero_add] at hsig hncu hctp
  have e1 : cp = ctp := get_file_ptr_ok hcp
  rw [e1] at hcp hci hcolp hcode
  have e2 : rc1 = colp := get_file_ptr_ok hrc1
  rw [e2] at hrc1 hnru
  have e3 : rc2 = colp := get_file_ptr_ok hrc2
  rw [e3] at hrc2 hrules
  exact ⟨siglen, ncu, ctp, ci, colp, nru, code, rules, hsig, hncu, hctp,
         hcp, hci, hcolp, hrc1, hnru, hrc2, hcode, hrules, hmsg.symm,
         reg_rules_loop_mem db _ colp ci _ 0 rules hrules⟩

/-- Taking the first two entries of a byte list does not change the two
indexed reads the COUNTRY validation performs. -/
theorem getD_take_two (s : List Nat) :
    (s.take 2).getD 0 0 = s.getD 0 0 ∧ (s.take 2).getD 1 0 = s.getD 1 0 := by
  cases s with
  | nil => exact ⟨rfl, rfl⟩
  | cons a t =>
    cases t with
    | nil => exact ⟨rfl, rfl⟩
    | cons b u => exact ⟨rfl, rfl⟩

/-- The loader result depends on the COUNTRY string only through its
first two bytes. -/
theorem crda_load_take_two (s db : List Nat) (g : Bool) :
    crda_load s db g = crda_load (s.take 2) db g := by
  obtain ⟨h0, h1⟩ := getD_take_two s
  unfold crda_load is_alpha2 is_world_regdom alpha2_of
  rw [h0, h1]

/-- The loader outcome depends on the COUNTRY string only through its
first two bytes. -/
theorem crda_main_take_two (s db : List Nat) (g : Bool) :
    crda_main s db g = crda_main (s.take 2) db g := by
  unfold crda_main
  rw [crda_load_take_two]

/-- C1: the claim says get_file_ptr fails with OutOfBounds whenever the
record size alone exceeds the usable length, with unsigned arithmetic
that cannot wrap past zero.  The code computes dblen - structlen in int
and converts the negative difference to unsigned for the comparison, so
with usable length 10 and record size 20 the bound becomes 4294967286
and offset 0 is accepted: the resolver hands out a 20-byte view of a
10-byte buffer instead of failing. -/
theorem get_file_ptr_accepts_oversized_record :
    get_file_ptr 10 20 0 = Except.ok 0 ∧ (10 : Int) < 20 :=
  ⟨rfl, by decide⟩

/-- C2 counterexample: the claim says the core never terminates the
process itself, but on a bad-pointer failure the loader calls exit(3)
directly (crda.c line 139), modelled as the exitProc outcome, here on a
database whose country table pointer is out of range. -/
theorem crda_main_exits_on_bad_pointer :
    crda_main [85, 83] dbBadPtr true = Outcome.fail (Fail.exitProc 3) := rfl

/-- C2 amended: every failure of the core other than pointer resolution
is returned to the caller as a tagged error value; pointer resolution
failure terminates the process directly, always with exit code 3, and
the netlink error callback also exits the process directly with the
received error code. -/
theorem crda_core_exit_paths :
    (∀ (cc db : List Nat) (g : Bool) (n : Int),
      crda_main cc db g = Outcome.fail (Fail.exitProc n) → n = 3) ∧
    (∀ e : Int, error_handler e = Fail.exitProc e) := by
  refine ⟨?_, fun e => rfl⟩
  intro cc db g n h
  unfold crda_main at h
  split at h
  · exact absurd h (by simp)
  · rename_i f heq
    have hf : f = Fail.exitProc n := Outcome.fail.inj h
    rw [hf] at heq
    exact onlyExit3_crda_load cc db g n heq

/-- C2 witness: the exit-code characterization applied to a concrete
run that terminates the process. -/
theorem crda_core_exit_paths_witness :
    crda_main [85, 83] dbBadPtr true = Outcome.fail (Fail.exitProc 3) ∧
    (3 : Int) = 3 :=
  ⟨rfl, crda_core_exit_paths.1 [85, 83] dbBadPtr true 3 rfl⟩

/-- C3: the claim says a file whose length minus the declared signature
length is at most the header size fails with InvalidSignatureLength
before any verification.  dbShort is 24 bytes and declares signature
length 1000, so the adjusted length is the negative value -976; the C
check dblen <= sizeof(header) converts the negative int to an unsigned
size_t, the test is false, and the digest then reads (size_t)(-976)
bytes, far past the buffer: the run ends in an out-of-bounds read, not
in InvalidSignatureLength. -/
theorem short_file_skips_signature_length_check :
    dbShort.length = 24 ∧ readU32 dbShort 8 = Except.ok 1000 ∧
    dbShort.length < 1000 ∧
    crda_main [85, 83] dbShort true = Outcome.fail Fail.oob :=
  ⟨rfl, rfl, by decide, rfl⟩

/-- C4: the claim says the verifier checks the signature against key i
on the i-th iteration and fails only after every key was tried.  The
gcrypt loop builds the public key from keys[0] on every iteration
(crda.c lines 337 and 339), so with two keys of which only the second
verifies, gcrypt verification fails even though a trusted key matches;
the OpenSSL loop (lines 289 to 300) does try each key in order and
succeeds on the same key table. -/
theorem gcrypt_ignores_later_keys :
    gcrypt_verify (fun k => k == 1) [0, 1] = false ∧
    openssl_key_loop (fun _ => 4) (fun k => k == 1) 4 [0, 1] = true :=
  ⟨rfl, rfl⟩

/-- C5: the claim says a country_count claiming more records than fit
in the usable buffer makes the load fail with OutOfBounds rather than
read past the buffer end.  dbManyCountries has 28 usable bytes and
claims 4 records (32 bytes of table) at offset 20; the block size 32
exceeds the usable 28, the int difference wraps to a huge unsigned
bound inside get_file_ptr, the table is accepted, and the scan then
reads past the end of the 32-byte buffer: an out-of-bounds read, not an
OutOfBounds failure. -/
theorem inflated_country_count_reads_past_buffer :
    readU32 dbManyCountries 16 = Except.ok 4 ∧
    dbManyCountries.length = 32 ∧
    crda_main [85, 83] dbManyCountries true = Outcome.fail Fail.oob :=
  ⟨rfl, rfl, rfl⟩

/-- C6: the country lookup scans the table linearly and returns the
first index whose two code bytes equal the requested code, stopping
there regardless of any later duplicate records, and reports
countryNotFound when every record mismatches. -/
theorem find_country_first_match (db : List Nat) (p : Nat) (a2 : List Nat)
    (n : Nat) :
    (∀ i0, i0 < n → getBytes db (p + 8 * i0) 2 = Except.ok a2 →
      (∀ j, j < i0 → ∃ b, getBytes db (p + 8 * j) 2 = Except.ok b ∧ b ≠ a2) →
      find_country db p a2 (n : Int) = Except.ok i0) ∧
    ((∀ j, j < n → ∃ b, getBytes db (p + 8 * j) 2 = Except.ok b ∧ b ≠ a2) →
      find_country db p a2 (n : Int) =
        Except.error (Fail.err Err.countryNotFound)) := by
  have hn : ((n : Int)).toNat = n := by omega
  constructor
  · intro i0 hi0 hmatch hprev
    unfold find_country
    rw [hn]
    have hm2 : getBytes db (p + 8 * (0 + i0)) 2 = Except.ok a2 := by
      rw [Nat.zero_add]; exact hmatch
    have hp2 : ∀ j, j < i0 →
        ∃ b, getBytes db (p + 8 * (0 + j)) 2 = Except.ok b ∧ b ≠ a2 := by
      intro j hj; rw [Nat.zero_add]; exact hprev j hj
    have := country_scan_finds db p a2 n 0 i0 hi0 hm2 hp2
    rw [Nat.zero_add] at this
    rw [this]
  · intro hmiss
    unfold find_country
    rw [hn]
    have hm2 : ∀ j, j < n →
        ∃ b, getBytes db (p + 8 * (0 + j)) 2 = Except.ok b ∧ b ≠ a2 := by
      intro j hj; rw [Nat.zero_add]; exact hmiss j hj
    rw [country_scan_misses db p a2 n 0 hm2]

/-- C6 witness: on a table holding the code US twice the scan returns
index 0, and on the same table a search for FF reports not found. -/
theorem find_country_first_match_witness :
    find_country dbDupTable 0 [85, 83] 2 = Except.ok 0 ∧
    find_country dbDupTable 0 [70, 70] 2 =
      Except.error (Fail.err Err.countryNotFound) := by
  constructor
  · exact (find_country_first_match dbDupTable 0 [85, 83] 2).1 0 (by decide)
      rfl (fun j hj => absurd hj (by omega))
  · refine (find_country_first_match dbDupTable 0 [70, 70] 2).2 ?_
    intro j hj
    match j, hj with
    | 0, _ => exact ⟨[85, 83], rfl, by decide⟩
    | 1, _ => exact ⟨[85, 83], rfl, by decide⟩

/-- C7: whenever the rule encoding loop succeeds it emits exactly one
nested container per rule, in collection order, and the six attribute
values of container k are the ntohl-converted flags, frequency start,
end, max bandwidth, antenna gain and eirp fields read at the offsets
resolved for rule k: a lossless, order-preserving round trip from the
source records to the attribute tree. -/
theorem reg_rules_round_trip (db : List Nat) (dblen : Int)
    (rcoll ci n : Nat) (out : List Attr)
    (h : reg_rules_loop db dblen rcoll ci 0 n = Except.ok out) :
    out.length = n ∧ ∀ k, k < n →
      ∃ rp frp prp flags sf ef bw g ei,
        readU32 db (rcoll + 4 + 4 * k) = Except.ok rp ∧
        get_file_ptr dblen 12 rp = Except.ok rp ∧
        readU32 db (rp + 4) = Except.ok frp ∧
        get_file_ptr dblen 12 frp = Except.ok frp ∧
        readU32 db (rp + 8) = Except.ok prp ∧
        get_file_ptr dblen 8 prp = Except.ok prp ∧
        readU32 db rp = Except.ok flags ∧
        readU32 db frp = Except.ok sf ∧
        readU32 db (frp + 4) = Except.ok ef ∧
        readU32 db (frp + 8) = Except.ok bw ∧
        readU32 db prp = Except.ok g ∧
        readU32 db (prp + 4) = Except.ok ei ∧
        out.get? k = some (Attr.nest ci
          [Attr.u32 NL80211_ATTR_REG_RULE_FLAGS flags,
           Attr.u32 NL80211_ATTR_FREQ_RANGE_START sf,
           Attr.u32 NL80211_ATTR_FREQ_RANGE_END ef,
           Attr.u32 NL80211_ATTR_FREQ_RANGE_MAX_BW bw,
           Attr.u32 NL80211_ATTR_POWER_RULE_MAX_ANT_GAIN g,
           Attr.u32 NL80211_ATTR_POWER_RULE_MAX_EIRP ei]) := by
  obtain ⟨hlen, hidx⟩ := reg_rules_loop_ok db dblen rcoll ci n 0 out h
  refine ⟨hlen, ?_⟩
  intro k hk
  obtain ⟨rp, attrs, hrp, hput, hget⟩ := hidx k hk
  obtain ⟨frp, prp, flags, sf, ef, bw, g, ei, h1, h2, h3, h4, h5, h6, h7,
          h8, h9, h10, h11, hattrs⟩ := put_reg_rule_ok hput
  subst hattrs
  rw [Nat.zero_add] at hrp
  exact ⟨rp, frp, prp, flags, sf, ef, bw, g, ei, hrp, h1, h2, h3, h4, h5,
         h6, h7, h8, h9, h10, h11, hget⟩

/-- C7 witness: the round trip applied to the one-rule collection of
goodDb, whose usable length is 68 and whose collection sits at 28. -/
theorem reg_rules_round_trip_witness :
    reg_rules_loop goodDb 68 28 0 0 1 = Except.ok goodRules ∧
    goodRules.length = 1 :=
  ⟨rfl, (reg_rules_round_trip goodDb 68 28 0 1 goodRules rfl).1⟩

/-- C8 counterexample: the claim says every requested code that is not
a 2-letter uppercase code and not the sentinel fails with InvalidInput
before the database is touched, but the string USA, which is neither,
is accepted: validation reads only the first two characters, so the
load proceeds and succeeds on goodDb. -/
theorem usa_not_rejected :
    crda_main [85, 83, 65] goodDb true = Outcome.ok goodMsg ∧
    crda_main [85, 83, 65] goodDb true ≠
      Outcome.fail (Fail.err Err.invalidInput) :=
  ⟨rfl, fun h => Outcome.noConfusion h⟩

/-- C8 amended: every requested string whose first two characters are
not an uppercase-letter pair and not both the digit zero fails with
InvalidInput, for every database buffer and signature verdict alike, so
the rejection happens before the buffer is consulted. -/
theorem invalid_code_rejected_before_db (cc db : List Nat) (g : Bool)
    (h : (is_alpha2 cc || is_world_regdom cc) = false) :
    crda_main cc db g = Outcome.fail (Fail.err Err.invalidInput) := by
  unfold crda_main crda_load
  rw [if_pos h]

/-- C8 witness: the lowercase string us is rejected as InvalidInput. -/
theorem invalid_code_rejected_before_db_witness :
    (is_alpha2 [117, 115] || is_world_regdom [117, 115]) = false ∧
    crda_main [117, 115] goodDb true =
      Outcome.fail (Fail.err Err.invalidInput) :=
  ⟨by decide, invalid_code_rejected_before_db [117, 115] goodDb true (by decide)⟩

/-- C9: COUNTRY validation inspects only the first two characters:
every string whose first two bytes are uppercase letters or are both
the digit zero is accepted, and the whole loader outcome is unchanged
when the string is truncated to those two characters, so USA is
accepted and matched as US. -/
theorem alpha2_check_reads_first_two (s : List Nat)
    (h : (isalpha_upper (s.getD 0 0) = true ∧ isalpha_upper (s.getD 1 0) = true) ∨
         (s.getD 0 0 = 48 ∧ s.getD 1 0 = 48)) :
    (is_alpha2 s || is_world_regdom s) = true ∧
    ∀ (db : List Nat) (g : Bool), crda_main s db g = crda_main (s.take 2) db g := by
  constructor
  · unfold is_alpha2 is_world_regdom
    rcases h with ⟨h0, h1⟩ | ⟨h0, h1⟩
    · rw [h0, h1]; simp
    · rw [h0, h1]; decide
  · intro db g
    exact crda_main_take_two s db g

/-- C9 witness: the three-character string USA is accepted and behaves
like its two-character truncation on goodDb. -/
theorem alpha2_check_reads_first_two_witness :
    (is_alpha2 [85, 83, 65] || is_world_regdom [85, 83, 65]) = true ∧
    crda_main [85, 83, 65] goodDb true =
      crda_main ([85, 83, 65].take 2) goodDb true :=
  ⟨(alpha2_check_reads_first_two [85, 83, 65]
      (Or.inl ⟨by decide, by decide⟩)).1,
   (alpha2_check_reads_first_two [85, 83, 65]
      (Or.inl ⟨by decide, by decide⟩)).2 goodDb true⟩

/-- C10: whenever the loader succeeds, the decode chain is anchored to
the header of the buffer: the country table pointer is the header field
at offset 12 and the count the field at offset 16, the scan over that
declared table yields the country index, and every per-rule nested
container of the message carries one and the same attribute type, that
scan index, not the index of the rule inside the collection (whose
pointers come from the re-resolved collection the chain also pins). -/
theorem rule_nest_type_is_country_index (cc db : List Nat) (g : Bool)
    (msg : List Attr) (h : crda_main cc db g = Outcome.ok msg) :
    ∃ siglen ncu ctp ci colp nru code rules,
      readU32 db 8 = Except.ok siglen ∧
      readU32 db 16 = Except.ok ncu ∧
      readU32 db 12 = Except.ok ctp ∧
      get_file_ptr ((db.length : Int) - (siglen : Int))
        (i32OfNat ((8 * u64OfInt (i32OfNat ncu)) % 18446744073709551616)) ctp
        = Except.ok ctp ∧
      find_country db ctp (alpha2_of cc) (i32OfNat ncu) = Except.ok ci ∧
      readU32 db (ctp + 8 * ci + 4) = Except.ok colp ∧
      get_file_ptr ((db.length : Int) - (siglen : Int)) 4 colp = Except.ok colp ∧
      readU32 db colp = Except.ok nru ∧
      get_file_ptr ((db.length : Int) - (siglen : Int))
        (i32OfNat ((4 + u64OfInt (i32OfNat nru) * 4) % 18446744073709551616)) colp
        = Except.ok colp ∧
      getBytes db (ctp + 8 * ci) 2 = Except.ok code ∧
      reg_rules_loop db ((db.length : Int) - (siglen : Int)) colp ci 0
        (i32OfNat nru).toNat = Except.ok rules ∧
      msg = [Attr.str NL80211_ATTR_REG_ALPHA2 code,
             Attr.nest NL80211_ATTR_REG_RULES rules] ∧
      ∀ a, a ∈ rules → ∃ attrs, a = Attr.nest ci attrs := by
  unfold crda_main at h
  split at h
  · rename_i msg2 heq
    have hm : msg2 = msg := Outcome.ok.inj h
    subst hm
    unfold crda_load at heq
    split at heq
    · exact absurd heq (by simp)
    · exact crda_body_ok heq
  · exact absurd h (by simp)

/-- C10 witness: the anchored container-type characterization applied
to the successful run on goodDb, whose header declares the table at 20
with one record, found at index 0. -/
theorem rule_nest_type_is_country_index_witness :
    crda_main [85, 83] goodDb true = Outcome.ok goodMsg ∧
    (∃ siglen ncu ctp ci colp nru code rules,
      readU32 goodDb 8 = Except.ok siglen ∧
      readU32 goodDb 16 = Except.ok ncu ∧
      readU32 goodDb 12 = Except.ok ctp ∧
      get_file_ptr ((goodDb.length : Int) - (siglen : Int))
        (i32OfNat ((8 * u64OfInt (i32OfNat ncu)) % 18446744073709551616)) ctp
        = Except.ok ctp ∧
      find_country goodDb ctp (alpha2_of [85, 83]) (i32OfNat ncu) = Except.ok ci ∧
      readU32 goodDb (ctp + 8 * ci + 4) = Except.ok colp ∧
      get_file_ptr ((goodDb.length : Int) - (siglen : Int)) 4 colp = Except.ok colp ∧
      readU32 goodDb colp = Except.ok nru ∧
      get_file_ptr ((goodDb.length : Int) - (siglen : Int))
        (i32OfNat ((4 + u64OfInt (i32OfNat nru) * 4) % 18446744073709551616)) colp
        = Except.ok colp ∧
      getBytes goodDb (ctp + 8 * ci) 2 = Except.ok code ∧
      reg_rules_loop goodDb ((goodDb.length : Int) - (siglen : Int)) colp ci 0
        (i32OfNat nru).toNat = Except.ok rules ∧
      goodMsg = [Attr.str NL80211_ATTR_REG_ALPHA2 code,
                 Attr.nest NL80211_ATTR_REG_RULES rules] ∧
      ∀ a, a ∈ rules → ∃ attrs, a = Attr.nest ci attrs) :=
  ⟨rfl, rule_nest_type_is_country_index [85, 83] goodDb true goodMsg rfl⟩

end Crda
